/-
Verification of the reconciliation and cell-allocation pipeline of the
data-transfer service, as a shallow embedding of the Python sources:

  * `src/services/transaction_service.py`  (TransactionTracker)
  * `src/services/config_service.py`       (MultiConfigCache)
  * `src/services/data_processor.py`       (get_cells_to_input / preparing_data)
  * `src/api/dependencies.py`              (ErrorData / get_error_data)
  * `src/api/routes.py`                    (add_sheet_config / processing_data)

Python dicts keyed by strings are embedded as association lists, Python sets
as lists with membership semantics, POSIX timestamps as rationals, and the
Google-Sheets column reads as lists of rows, each row a list of cell strings
(an empty cell is an empty row, as in the Sheets API `values` payloads).
Functions that may raise or return an error string are embedded in `Except`.
-/
import Mathlib

set_option linter.unusedVariables false

namespace DataTransfer

/-! ## Transaction Tracker (`src/services/transaction_service.py`) -/

/-- The tracker state: `_transaction_sets`, a dict mapping a sheet name to the
set of transaction ids already seen for that sheet.  A Python `set` is
embedded as a `List String` with membership semantics. -/
def Tracker := List (String × List String)

instance : DecidableEq Tracker := by
  unfold Tracker
  infer_instance

/-- Seen-set lookup: `self._transaction_sets[sheet_name]`, defaulting to the
empty set when the sheet has no entry yet. -/
def seenOf (t : Tracker) (sheet : String) : List String :=
  match t.find? (fun p => p.1 == sheet) with
  | some p => p.2
  | none => []

/-- `self._transaction_sets[sheet_name] = s` (insert or overwrite). -/
def setSeen : Tracker → String → List String → Tracker
  | [], sheet, s => [(sheet, s)]
  | (k, v) :: rest, sheet, s =>
    if k == sheet then (sheet, s) :: rest else (k, v) :: setSeen rest sheet s

/-- `TransactionTracker.filter_new_transactions`: returns the incoming ids not
previously seen for the sheet, in input order, and merges them into the
sheet's seen-set.  Empty input returns empty output and causes no mutation. -/
def filterNewTransactions (t : Tracker) (sheet : String) (ids : List String) :
    List String × Tracker :=
  if ids.isEmpty then ([], t)
  else
    let seen := seenOf t sheet
    let res := ids.filter (fun i => !(seen.contains i))
    (res, setSeen t sheet (seen ++ res))

/-! ## Configuration Store (`src/services/config_service.py`) -/

/-- One sheet-configuration dict (the fields of `models.SheetConfig` plus the
`last_accessed` POSIX timestamp stamped by the store). -/
structure SheetCfg where
  sheetId : String
  danaUsed : String
  sheetName : String
  spreadsheetIds : String
  bankDestination : String
  bankNameDestination : String
  lastAccessed : ℚ
deriving DecidableEq, Inhabited

/-- The `MultiConfigCache.config_cache` dict: the single `global_settings`
field `transfer_destination` plus the `sheet_configs` list. -/
structure ConfigCache where
  transferDestination : String
  sheetConfigs : List SheetCfg
deriving DecidableEq, Inhabited

/-- `MultiConfigCache.get_sheet_config_by_name` (the value it returns is a
`dict.copy()`; in this by-value embedding the copy is implicit, the aliasing
behaviour is studied separately in the heap embedding below). -/
def getSheetConfigByName (c : ConfigCache) (n : String) : Option SheetCfg :=
  c.sheetConfigs.find? (fun k => k.sheetName == n)

/-- `MultiConfigCache.add_sheet_config`: stamps the freshly generated id
(`uuid4`, supplied here as `newId`) and `last_accessed = time.time()`, then
appends unconditionally. -/
def addSheetConfigCache (c : ConfigCache) (cfg : SheetCfg) (newId : String) (now : ℚ) :
    String × ConfigCache :=
  (newId,
    { c with sheetConfigs :=
        c.sheetConfigs ++ [{ cfg with sheetId := newId, lastAccessed := now }] })

/-- The store-level add operation (`routes.add_sheet_config`): rejects a
duplicate `sheet_name` before calling `add_sheet_config` on the cache. -/
def addSheetConfigRoute (c : ConfigCache) (cfg : SheetCfg) (newId : String) (now : ℚ) :
    Except String String × ConfigCache :=
  if (getSheetConfigByName c cfg.sheetName).isSome then
    (.error ("Configuration for sheet '" ++ cfg.sheetName ++ "' already exists"), c)
  else
    let r := addSheetConfigCache c cfg newId now
    (.ok r.1, r.2)

/-- The loop body of `MultiConfigCache.update_last_accessed`: refresh the
timestamp of the first config whose `sheet_name` matches and stop. -/
def touchFirst (n : String) (now : ℚ) : List SheetCfg → Bool × List SheetCfg
  | [] => (false, [])
  | k :: rest =>
    if k.sheetName == n then (true, { k with lastAccessed := now } :: rest)
    else
      let r := touchFirst n now rest
      (r.1, k :: r.2)

/-- `MultiConfigCache.update_last_accessed`. -/
def updateLastAccessed (c : ConfigCache) (n : String) (now : ℚ) : Bool × ConfigCache :=
  let r := touchFirst n now c.sheetConfigs
  (r.1, { c with sheetConfigs := r.2 })

/-- `elapsed_minutes = (now - last_accessed) / 60 > expiration_minutes`. -/
def isExpired (expirationMinutes now lastAccessed : ℚ) : Bool :=
  decide (expirationMinutes < (now - lastAccessed) / 60)

/-- The scanning loop of `MultiConfigCache.delete_expired_configs`: collect
the (ascending) indices of the expired configs together with their
`(sheet_id, sheet_name)` pairs; `i` is the index of the list's head. -/
def sweepScan (W now : ℚ) : List SheetCfg → Nat → List Nat × List (String × String)
  | [], _ => ([], [])
  | k :: rest, i =>
    let r := sweepScan W now rest (i + 1)
    if isExpired W now k.lastAccessed then (i :: r.1, (k.sheetId, k.sheetName) :: r.2)
    else (r.1, r.2)

/-- `for index in sorted(to_delete, reverse=True): del configs[index]`. -/
def deleteIndicesDesc (l : List SheetCfg) (idxs : List Nat) : List SheetCfg :=
  idxs.foldl (fun acc i => acc.eraseIdx i) l

/-- `MultiConfigCache.delete_expired_configs`: returns the deleted
`(sheet_id, sheet_name)` pairs and the swept store. -/
def deleteExpiredConfigs (W now : ℚ) (c : ConfigCache) :
    List (String × String) × ConfigCache :=
  let r := sweepScan W now c.sheetConfigs 0
  (r.2, { c with sheetConfigs := deleteIndicesDesc c.sheetConfigs r.1.reverse })

/-! ## Cell Allocator (`src/services/data_processor.py`, `get_cells_to_input`)

The two columns read from the remote table arrive as lists of rows, one row
per spreadsheet row starting at absolute row 13; a row is a list of cell
strings and an empty cell is the empty row `[]`, exactly as the Sheets API
returns them.  `list_indices = cell_indices - 13`. -/

/-- `list_indices >= len(name_list) or not name_list[list_indices]`. -/
def isWritableRow (nameList : List (List String)) (li : Nat) : Bool :=
  nameList.length ≤ li || (nameList.getD li []).isEmpty

/-- `list_indices >= len(bank_list) or not bank_list[list_indices] or
bank_list[list_indices][0] != dana_used`. -/
def isBankRow (danaUsed : String) (bankList : List (List String)) (li : Nat) : Bool :=
  bankList.length ≤ li || (bankList.getD li []).isEmpty ||
    ((bankList.getD li []).headD "" != danaUsed)

/-- The scanning loop of `get_cells_to_input`: `k` is the number of loop
iterations left (`max_check` at the start), `cell` the current absolute row
index (13 at the start), and the two accumulators hold the collected
`name_ranges`/`bank_ranges` in reverse; the loop stops early as soon as
`len(name_ranges) == total_range`. -/
def scanCells (danaUsed : String) (total : Nat) (bankList nameList : List (List String)) :
    Nat → Nat → List Nat → List Nat → List Nat × List Nat
  | 0, _, accN, accB => (accN.reverse, accB.reverse)
  | k + 1, cell, accN, accB =>
    let li := cell - 13
    if isWritableRow nameList li then
      let accN' := cell :: accN
      let accB' := if isBankRow danaUsed bankList li then cell :: accB else accB
      if accN'.length = total then (accN'.reverse, accB'.reverse)
      else scanCells danaUsed total bankList nameList k (cell + 1) accN' accB'
    else scanCells danaUsed total bankList nameList k (cell + 1) accN accB

/-- `get_cells_to_input`, after the remote read has produced the two columns:
empty table short-circuit, otherwise the scan bounded by
`max(len(name_list), len(bank_list)) + total_range`, and the "no space"
error string when no writable row was found. -/
def getCellsToInput (danaUsed : String) (totalRange : Nat)
    (bankList nameList : List (List String)) : Except String (List Nat × List Nat) :=
  if bankList.isEmpty && nameList.isEmpty then
    .ok (List.range' 13 totalRange, List.range' 13 totalRange)
  else
    let maxCheck := max nameList.length bankList.length + totalRange
    let r := scanCells danaUsed totalRange bankList nameList maxCheck 13 [] []
    if r.1.isEmpty then .error "Could not find empty cells in the spreadsheet"
    else .ok (r.1, r.2)

/-- Proof helper (not from the source): the number of writable rows among the
`k` cells starting at absolute row `cell`. -/
def wcount (nameList : List (List String)) : Nat → Nat → Nat
  | _, 0 => 0
  | cell, k + 1 =>
    (if isWritableRow nameList (cell - 13) then 1 else 0) + wcount nameList (cell + 1) k

/-! ## Row Formatter (`src/services/data_processor.py`, `preparing_data`) -/

/-- Front match: `pat` is an initial run of `hay`. -/
def matchFront : List Char → List Char → Bool
  | [], _ => true
  | _ :: _, [] => false
  | p :: ps, h :: hs => p == h && matchFront ps hs

/-- Substring occurrence anywhere in `hay`. -/
def hasSubstr (pat : List Char) : List Char → Bool
  | [] => matchFront pat []
  | h :: t => matchFront pat (h :: t) || hasSubstr pat t

/-- Python's `pat in s` substring containment on strings. -/
def strContains (s pat : String) : Bool := hasSubstr pat.data s.data

/-- The merged per-request config dict `{**sheet_config, **global_settings}`
of `routes.processing_data`, restricted to the fields `preparing_data`
reads. -/
structure MergedConfig where
  danaUsed : String
  transferDestination : String
  bankDestination : String
  bankNameDestination : String
deriving DecidableEq, Inhabited

/-- The label rewrite `preparing_data` applies to `values[i][0]`:
`'KIRIM DANA KE' in label` appends the configured transfer destination;
otherwise `'KIRIM UANG' in label` with both destination-bank fields
configured (non-empty) replaces the label by the canonical string; all other
labels are left as they are. -/
def rewriteLabel (cfg : MergedConfig) (l0 : String) : String :=
  if strContains l0 "KIRIM DANA KE" then l0 ++ " " ++ cfg.transferDestination
  else if strContains l0 "KIRIM UANG" && !cfg.bankDestination.isEmpty
      && !cfg.bankNameDestination.isEmpty then
    "KIRIM DANA KE " ++ cfg.bankDestination ++ " " ++ cfg.bankNameDestination
      ++ " " ++ cfg.transferDestination
  else l0

/-- One iteration of the main loop of `preparing_data` on row `values[i]`
aligned with the allocated absolute row `cell = name_ranges[i]`: rewrites
the label (index 0), overwrites index 1 with the division formula, and
replaces a non-empty fee field (index 5) by the conditional formula when the
(already rewritten) label is not a "KIRIM DANA KE" one.  A row with fewer
than 6 fields raises `IndexError` in Python, which the surrounding `try`
turns into the error-string return. -/
def transformRow (cfg : MergedConfig) (row : List String) (cell : Nat) :
    Except String (List String) :=
  match row with
  | l0 :: _ :: l2 :: l3 :: l4 :: l5 :: rest =>
    let l0' := rewriteLabel cfg l0
    let l1' := "=G" ++ toString cell ++ "/1000"
    let l5' :=
      if !l5.isEmpty && !(strContains l0' "KIRIM DANA KE") then
        "=IF(OR(ISNUMBER(G" ++ toString cell ++ "),OR(ISNUMBER(H" ++ toString cell
          ++ "),ISNUMBER(I" ++ toString cell ++ ")))," ++ l5 ++ ",\"\")"
      else l5
    .ok (l0' :: l1' :: l2 :: l3 :: l4 :: l5' :: rest)
  | _ => .error "Error preparing data: list index out of range"

/-- One batch-update instruction `{'range': ..., 'values': [...]}`. -/
structure Instr where
  range : String
  values : List (List String)
deriving DecidableEq, Inhabited

/-- The main loop of `preparing_data` (`for i in range(len(name_ranges))`,
breaking at `len(values)`), run on the aligned pairs
`name_ranges.zip values`: each row emits its `E` instruction and, when the
confirmation field `values[i][2]` is empty, a `B` instruction carrying the
current time, the tenant's bank code and the `'-'` placeholder. -/
def mainLoop (cfg : MergedConfig) (nowStr : String) :
    List (Nat × List String) → Except String (List Instr)
  | [] => .ok []
  | (cell, row) :: rest =>
    match transformRow cfg row cell with
    | .error e => .error e
    | .ok row' =>
      match mainLoop cfg nowStr rest with
      | .error e => .error e
      | .ok tail =>
        .ok (Instr.mk ("E" ++ toString cell) [row']
          :: ((if (row'.getD 2 "").isEmpty then
                [Instr.mk ("B" ++ toString cell) [[nowStr, cfg.danaUsed, "-"]]]
              else []) ++ tail))

/-- A bank-indicator instruction `{'range': f'C{row}', 'values': [[dana_used]]}`. -/
def mkBankInstr (danaUsed : String) (r : Nat) : Instr :=
  Instr.mk ("C" ++ toString r) [[danaUsed]]

/-- The bank loop of `preparing_data`: appends one `C` instruction per
`bank_ranges` element, breaking when the loop counter `i` reaches
`len(data) / 2` for the current (growing) `data`. -/
def bankLoop (danaUsed : String) : List Nat → Nat → List Instr → List Instr
  | [], _, data => data
  | r :: rest, i, data =>
    if data.length ≤ 2 * i then data
    else bankLoop danaUsed rest (i + 1) (data ++ [mkBankInstr danaUsed r])

/-- `preparing_data`, with the two remote columns passed in place of the
Sheets service handle and `get_current_time()` passed as `nowStr`. -/
def preparingData (cfg : MergedConfig) (values : List (List String)) (nowStr : String)
    (bankList nameList : List (List String)) : Except String (List Instr) :=
  match getCellsToInput cfg.danaUsed values.length bankList nameList with
  | .error e => .error e
  | .ok (nameRanges, bankRanges) =>
    match mainLoop cfg nowStr (nameRanges.zip values) with
    | .error e => .error e
    | .ok data => .ok (bankLoop cfg.danaUsed bankRanges 0 data)

/-! ## Heap embedding of object identity

Python dicts and lists are mutable objects; to settle the aliasing claims the
configs/rows live in a heap (a list indexed by allocation order) and the
store or caller holds references (indices) into it.  `list.copy()` copies
only the list of references; `dict.copy()` allocates a fresh dict. -/

/-- The `global_settings` dict. -/
structure GlobalS where
  transferDestination : String
deriving DecidableEq, Inhabited

/-- The `MultiConfigCache` state with explicit object identity: `cfgHeap` and
`gHeap` hold the live config/settings dicts, `refs` is the stored
`sheet_configs` list of references and `gRef` the stored `global_settings`
reference. -/
structure CacheH where
  cfgHeap : List SheetCfg
  gHeap : List GlobalS
  refs : List Nat
  gRef : Nat
deriving DecidableEq, Inhabited

/-- Dereference a config dict. -/
def CacheH.readCfg (c : CacheH) (r : Nat) : SheetCfg := c.cfgHeap.getD r default

/-- `get_all_sheet_configs`: `self.config_cache["sheet_configs"].copy()` — a
new list whose elements are the same dict objects (the same references). -/
def CacheH.getAllSheetConfigs (c : CacheH) : List Nat := c.refs

def CacheH.findRefByName (c : CacheH) (n : String) : Option Nat :=
  c.refs.find? (fun r => (c.readCfg r).sheetName == n)

def CacheH.findRefById (c : CacheH) (i : String) : Option Nat :=
  c.refs.find? (fun r => (c.readCfg r).sheetId == i)

/-- `get_sheet_config_by_name`: returns `config.copy()`, a freshly allocated
dict with the same (flat) contents. -/
def CacheH.getSheetConfigByName (c : CacheH) (n : String) : Option Nat × CacheH :=
  match c.findRefByName n with
  | some r => (some c.cfgHeap.length, { c with cfgHeap := c.cfgHeap ++ [c.readCfg r] })
  | none => (none, c)

/-- `get_sheet_config` (lookup by id), also returning a fresh copy. -/
def CacheH.getSheetConfigById (c : CacheH) (i : String) : Option Nat × CacheH :=
  match c.findRefById i with
  | some r => (some c.cfgHeap.length, { c with cfgHeap := c.cfgHeap ++ [c.readCfg r] })
  | none => (none, c)

/-- `get_global_settings`: returns `global_settings.copy()`. -/
def CacheH.getGlobalSettings (c : CacheH) : Nat × CacheH :=
  (c.gHeap.length, { c with gHeap := c.gHeap ++ [c.gHeap.getD c.gRef default] })

/-- A caller-side mutation of the config dict behind reference `r`
(e.g. `cfg["sheet_name"] = ...` on a value obtained from an accessor). -/
def CacheH.writeCfg (c : CacheH) (r : Nat) (k : SheetCfg) : CacheH :=
  { c with cfgHeap := c.cfgHeap.set r k }

/-- A caller-side mutation of the settings dict behind reference `g`. -/
def CacheH.writeG (c : CacheH) (g : Nat) (v : GlobalS) : CacheH :=
  { c with gHeap := c.gHeap.set g v }

/-- The config value a by-name lookup observes through the store's own
references. -/
def CacheH.peekByName (c : CacheH) (n : String) : Option SheetCfg :=
  (c.findRefByName n).map c.readCfg

/-- The config value a by-id lookup observes. -/
def CacheH.peekById (c : CacheH) (i : String) : Option SheetCfg :=
  (c.findRefById i).map c.readCfg

/-- The settings value the store observes. -/
def CacheH.peekGlobal (c : CacheH) : GlobalS := c.gHeap.getD c.gRef default

/-- Well-formed store: every stored reference points into its heap. -/
def CacheH.WF (c : CacheH) : Prop :=
  (∀ r ∈ c.refs, r < c.cfgHeap.length) ∧ c.gRef < c.gHeap.length

/-- Observational equality of two store states: every accessor reports the
same values. -/
def obsEq (c₂ c₁ : CacheH) : Prop :=
  (∀ n, c₂.peekByName n = c₁.peekByName n) ∧
  (∀ i, c₂.peekById i = c₁.peekById i) ∧
  c₂.peekGlobal = c₁.peekGlobal ∧
  c₂.refs.map c₂.readCfg = c₁.refs.map c₁.readCfg

/-- An emitted instruction's values: either a reference to a caller row
object, or a freshly constructed literal list. -/
inductive Payload where
  | ref (r : Nat)
  | lit (vs : List (List String))
deriving DecidableEq

/-- A batch-update instruction with object identity of its values. -/
structure InstrH where
  range : String
  payload : Payload
deriving DecidableEq

/-- The main loop of `preparing_data` with row identity made explicit: the
caller's `values` list holds references into `rows` (the heap of row lists);
each iteration mutates the referenced row in place via `transformRow` and
the emitted `E` instruction carries the reference itself
(`'values': [values[i]]` wraps the caller's very row object), while `B`
instructions are built from fresh literals. -/
def mainLoopH (cfg : MergedConfig) (nowStr : String) :
    List (Nat × Nat) → List (List String) →
      Except String (List InstrH × List (List String))
  | [], rows => .ok ([], rows)
  | (cell, r) :: rest, rows =>
    match transformRow cfg (rows.getD r []) cell with
    | .error e => .error e
    | .ok row' =>
      match mainLoopH cfg nowStr rest (rows.set r row') with
      | .error e => .error e
      | .ok p =>
        .ok (InstrH.mk ("E" ++ toString cell) (.ref r)
          :: ((if (row'.getD 2 "").isEmpty then
                [InstrH.mk ("B" ++ toString cell) (.lit [[nowStr, cfg.danaUsed, "-"]])]
              else []) ++ p.1), p.2)

/-! ## Error Retry Buffer and batch orchestration
(`src/api/dependencies.py`, `src/api/routes.py`) -/

/-- `ErrorData.sheet_error_data`: a dict from sheet name to the buffered raw
rows. -/
structure ErrorData where
  sheetErrorData : List (String × List (List String))
deriving DecidableEq, Inhabited

/-- `ErrorData.has_data`. -/
def ErrorData.hasData (e : ErrorData) (sheet : String) : Bool :=
  match e.sheetErrorData.find? (fun p => p.1 == sheet) with
  | some p => !p.2.isEmpty
  | none => false

/-- `ErrorData.get`. -/
def ErrorData.get (e : ErrorData) (sheet : String) : List (List String) :=
  match e.sheetErrorData.find? (fun p => p.1 == sheet) with
  | some p => p.2
  | none => []

/-- Dict update underlying `ErrorData.add`: create the key when absent, then
extend its row list. -/
def edAdd : List (String × List (List String)) → String → List (List String) →
    List (String × List (List String))
  | [], sheet, rows => [(sheet, rows)]
  | (k, v) :: rest, sheet, rows =>
    if k == sheet then (k, v ++ rows) :: rest else (k, v) :: edAdd rest sheet rows

/-- `ErrorData.add`. -/
def ErrorData.add (e : ErrorData) (sheet : String) (rows : List (List String)) :
    ErrorData :=
  ErrorData.mk (edAdd e.sheetErrorData sheet rows)

/-- `ErrorData.remove`: `del self.sheet_error_data[sheet_name]`. -/
def ErrorData.remove (e : ErrorData) (sheet : String) : ErrorData :=
  ErrorData.mk (e.sheetErrorData.filter (fun p => p.1 != sheet))

/-- `dependencies.get_error_data`: constructs and returns a NEW `ErrorData()`
instance on every call — unlike `get_config_cache`/`get_transaction_tracker`
it keeps no module-level singleton. -/
def getErrorData : ErrorData := ErrorData.mk []

/-- What one `/on_change` request leaves behind. -/
structure ReqOutcome where
  merged : List (List String)
  localBuffer : ErrorData
  skipped : Bool
deriving DecidableEq, Inhabited

/-- One `/on_change` request (`routes.processing_data`), with the
allocate/format/deliver stage abstracted by `stageFails` (true when that
stage raises).  Per the code, `error_data = get_error_data()` is evaluated
anew inside the handler, so the buffer consulted for the merge and written
by the exception handler is request-local; the only state surviving between
requests is the transaction tracker.  `merged` is `copy_data` as passed to
`preparing_data`; the exception handler appends `copy_data` to the (local)
buffer only when it is non-empty. -/
def processRequest (tracker : Tracker) (sheet : String) (txIds : List String)
    (values : List (List String)) (stageFails : Bool) : ReqOutcome × Tracker :=
  let errorData := getErrorData
  let fr := filterNewTransactions tracker sheet txIds
  if fr.1.isEmpty then (ReqOutcome.mk [] errorData true, fr.2)
  else
    let newIndices :=
      (List.range txIds.length).filter (fun i => fr.1.contains (txIds.getD i ""))
    let copyData := newIndices.map (fun i => values.getD i [])
    let m := if errorData.hasData sheet then
        (copyData ++ errorData.get sheet, errorData.remove sheet)
      else (copyData, errorData)
    if stageFails then
      (ReqOutcome.mk m.1 (if m.1.isEmpty then m.2 else m.2.add sheet m.1) false, fr.2)
    else (ReqOutcome.mk m.1 m.2 false, fr.2)

end DataTransfer

namespace DataTransfer

theorem seenOf_setSeen (t : Tracker) (sheet : String) (s : List String) :
    seenOf (setSeen t sheet s) sheet = s := by
  induction t with
  | nil => simp [setSeen, seenOf, List.find?]
  | cons hd tl ih =>
    obtain ⟨k, v⟩ := hd
    by_cases hk : k == sheet
    · simp [setSeen, hk, seenOf, List.find?]
    · simpa [setSeen, hk, seenOf, List.find?] using ih

/-- Membership characterisation of the seen-set after the two calls. -/
theorem filterNew_first_from_empty (sheet : String) (A : List String) :
    (filterNewTransactions ([] : Tracker) sheet A).1 = A := by
  cases A with
  | nil => simp [filterNewTransactions]
  | cons a as =>
    simp [filterNewTransactions, seenOf, List.find?, List.filter_eq_self]

theorem filterNew_seen_after_first (sheet : String) (A : List String) (hA : A ≠ []) :
    seenOf (filterNewTransactions ([] : Tracker) sheet A).2 sheet = A := by
  cases A with
  | nil => exact absurd rfl hA
  | cons a as =>
    simp [filterNewTransactions, seenOf, setSeen, List.find?, List.filter_eq_self]

theorem filterNew_fst (t : Tracker) (sheet : String) (B : List String) :
    (filterNewTransactions t sheet B).1
      = B.filter (fun x => !((seenOf t sheet).contains x)) := by
  cases B with
  | nil => simp [filterNewTransactions]
  | cons b bs => simp [filterNewTransactions]

theorem filterNew_second (sheet : String) (A B : List String) :
    (filterNewTransactions (filterNewTransactions ([] : Tracker) sheet A).2 sheet B).1
      = B.filter (fun x => !(A.contains x)) := by
  rcases eq_or_ne A [] with hA | hA
  · subst hA
    rw [filterNew_fst]
    simp [filterNewTransactions, seenOf, List.find?]
  · rw [filterNew_fst, filterNew_seen_after_first sheet A hA]

/-- C3, amended.  From a fresh tenant, the first call returns all of `A`; the
second returns exactly the occurrences of ids of `B` not contained in `A`,
preserving `B`'s order; and when `A` and `B` are free of internal repetitions
every id appears at most once in total across the two returned sequences. -/
theorem claim_C3_filter_new_dedup (sheet : String) (A B : List String) :
    (filterNewTransactions ([] : Tracker) sheet A).1 = A ∧
    (filterNewTransactions (filterNewTransactions ([] : Tracker) sheet A).2 sheet B).1
      = B.filter (fun x => !(A.contains x)) ∧
    ((filterNewTransactions (filterNewTransactions ([] : Tracker) sheet A).2 sheet B).1).Sublist B ∧
    (A.Nodup → B.Nodup → ∀ x : String,
      ((filterNewTransactions ([] : Tracker) sheet A).1 ++
        (filterNewTransactions (filterNewTransactions ([] : Tracker) sheet A).2 sheet B).1).count x
        ≤ 1) := by
  refine ⟨filterNew_first_from_empty sheet A, filterNew_second sheet A B, ?_, ?_⟩
  · rw [filterNew_second]
    exact List.filter_sublist B
  · intro hA hB x
    rw [filterNew_first_from_empty, filterNew_second, List.count_append]
    by_cases hx : x ∈ B.filter (fun x => !(A.contains x))
    · have hxA : x ∉ A := by
        have := (List.mem_filter.mp hx).2
        simpa using this
      have h1 : A.count x = 0 := List.count_eq_zero.mpr hxA
      have h2 : (B.filter (fun x => !(A.contains x))).count x ≤ 1 :=
        List.nodup_iff_count_le_one.mp (hB.filter _) x
      omega
    · have h2 : (B.filter (fun x => !(A.contains x))).count x = 0 :=
        List.count_eq_zero.mpr hx
      have h1 : A.count x ≤ 1 := List.nodup_iff_count_le_one.mp hA x
      omega

/-- C3, counterexample to the claim as stated: with an internal repetition in
`B`, the id "b" is returned twice across the two calls. -/
theorem claim_C3_cex :
    (filterNewTransactions
        (filterNewTransactions ([] : Tracker) "S" ["a"]).2 "S" ["b", "b"]).1 = ["b", "b"] ∧
    ((filterNewTransactions ([] : Tracker) "S" ["a"]).1 ++
      (filterNewTransactions
        (filterNewTransactions ([] : Tracker) "S" ["a"]).2 "S" ["b", "b"]).1).count "b" = 2 := by
  constructor <;> rfl

theorem sweepScan_info (W now : ℚ) (l : List SheetCfg) (i : Nat) :
    (sweepScan W now l i).2
      = (l.filter (fun k => isExpired W now k.lastAccessed)).map
          (fun k => (k.sheetId, k.sheetName)) := by
  induction l generalizing i with
  | nil => rfl
  | cons k rest ih =>
    by_cases hk : isExpired W now k.lastAccessed
    · simp [sweepScan, hk, List.filter_cons, ih]
    · simp [sweepScan, hk, List.filter_cons, ih]

theorem sweepScan_idxs_shift (W now : ℚ) (l : List SheetCfg) (i : Nat) :
    (sweepScan W now l (i + 1)).1 = ((sweepScan W now l i).1).map (· + 1) := by
  induction l generalizing i with
  | nil => rfl
  | cons k rest ih =>
    by_cases hk : isExpired W now k.lastAccessed
    · simp [sweepScan, hk, ih]
    · simp [sweepScan, hk, ih]

theorem deleteIndicesDesc_map_succ (js : List Nat) (k : SheetCfg) (rest : List SheetCfg) :
    deleteIndicesDesc (k :: rest) (js.map (· + 1)) = k :: deleteIndicesDesc rest js := by
  induction js generalizing rest with
  | nil => rfl
  | cons j js ih =>
    show deleteIndicesDesc ((k :: rest).eraseIdx (j + 1)) (js.map (· + 1))
        = k :: deleteIndicesDesc (rest.eraseIdx j) js
    rw [List.eraseIdx_cons_succ, ih]

theorem deleteIndicesDesc_append (l : List SheetCfg) (xs ys : List Nat) :
    deleteIndicesDesc l (xs ++ ys) = deleteIndicesDesc (deleteIndicesDesc l xs) ys :=
  List.foldl_append ..

/-- Deleting the collected expired indices in descending order is the same as
filtering out the expired configs. -/
theorem deleteIndicesDesc_sweepScan (W now : ℚ) (l : List SheetCfg) :
    deleteIndicesDesc l ((sweepScan W now l 0).1).reverse
      = l.filter (fun k => !(isExpired W now k.lastAccessed)) := by
  induction l with
  | nil => rfl
  | cons k rest ih =>
    by_cases hk : isExpired W now k.lastAccessed
    · have h1 : (sweepScan W now (k :: rest) 0).1
          = 0 :: ((sweepScan W now rest 0).1).map (· + 1) := by
        simp [sweepScan, hk, sweepScan_idxs_shift]
      rw [h1, List.reverse_cons, ← List.map_reverse, deleteIndicesDesc_append,
        deleteIndicesDesc_map_succ]
      show (k :: deleteIndicesDesc rest ((sweepScan W now rest 0).1).reverse).eraseIdx 0
          = List.filter _ (k :: rest)
      rw [List.eraseIdx_cons_zero, ih, List.filter_cons]
      simp [hk]
    · have h1 : (sweepScan W now (k :: rest) 0).1
          = ((sweepScan W now rest 0).1).map (· + 1) := by
        simp [sweepScan, hk, sweepScan_idxs_shift]
      rw [h1, ← List.map_reverse, deleteIndicesDesc_map_succ, ih, List.filter_cons]
      simp [hk]

theorem touchFirst_mem (n : String) (t : ℚ) (l : List SheetCfg)
    (h : (l.find? (fun k => k.sheetName == n)).isSome) :
    ∃ k ∈ (touchFirst n t l).2, k.sheetName = n ∧ k.lastAccessed = t := by
  induction l with
  | nil => simp [List.find?] at h
  | cons k rest ih =>
    by_cases hk : k.sheetName == n
    · refine ⟨{ k with lastAccessed := t }, ?_, ?_, rfl⟩
      · simp [touchFirst, hk]
      · simpa using hk
    · rw [List.find?_cons_of_neg _ (by simpa using hk)] at h
      obtain ⟨k', hk', h1, h2⟩ := ih h
      exact ⟨k', by simp [touchFirst, hk, hk'], h1, h2⟩

/-- C6: `delete_expired_configs` removes exactly the configs whose
`(now - last_accessed) / 60` exceeds the expiration window, returns their
`(sheet_id, sheet_name)` pairs in store order, keeps every other config, and
a config touched at time `t` that is not expired at sweep time survives the
sweep. -/
theorem claim_C6_sweep_expired (W now : ℚ) (c : ConfigCache) (n : String) (t : ℚ) :
    (deleteExpiredConfigs W now c).2.sheetConfigs
        = c.sheetConfigs.filter (fun k => !(isExpired W now k.lastAccessed)) ∧
    (deleteExpiredConfigs W now c).1
        = (c.sheetConfigs.filter (fun k => isExpired W now k.lastAccessed)).map
            (fun k => (k.sheetId, k.sheetName)) ∧
    (isExpired W now t = false → (getSheetConfigByName c n).isSome →
      (getSheetConfigByName (deleteExpiredConfigs W now (updateLastAccessed c n t).2).2
        n).isSome) := by
  refine ⟨deleteIndicesDesc_sweepScan W now c.sheetConfigs,
    sweepScan_info W now c.sheetConfigs 0, ?_⟩
  intro hexp hsome
  obtain ⟨k, hkmem, hkn, hkt⟩ := touchFirst_mem n t c.sheetConfigs hsome
  have hc2 : (deleteExpiredConfigs W now (updateLastAccessed c n t).2).2.sheetConfigs
      = (updateLastAccessed c n t).2.sheetConfigs.filter
          (fun k => !(isExpired W now k.lastAccessed)) :=
    deleteIndicesDesc_sweepScan W now _
  show (List.find? _ _).isSome
  rw [hc2, List.find?_isSome]
  refine ⟨k, ?_, by simp [hkn]⟩
  rw [List.mem_filter]
  exact ⟨hkmem, by simp [hkt, hexp]⟩

/-- Witness for C6 at a concrete store: one aged config is swept, one fresh
config stays, and a touched config survives the sweep. -/
theorem claim_C6_sweep_expired_witness :
    (deleteExpiredConfigs 30 3600
        (ConfigCache.mk "LAYER 1"
          [SheetCfg.mk "i1" "d" "A" "s" "b" "bn" 0,
           SheetCfg.mk "i2" "d" "B" "s" "b" "bn" 3000])).1 = [("i1", "A")] ∧
    (getSheetConfigByName
      (deleteExpiredConfigs 30 3600
        (updateLastAccessed
          (ConfigCache.mk "LAYER 1"
            [SheetCfg.mk "i1" "d" "A" "s" "b" "bn" 0,
             SheetCfg.mk "i2" "d" "B" "s" "b" "bn" 3000]) "B" 3500).2).2 "B").isSome := by
  have e1 : isExpired 30 3600 0 = true := by
    simp only [isExpired, decide_eq_true_eq]
    norm_num
  have e2 : isExpired 30 3600 3000 = false := by
    simp only [isExpired, decide_eq_false_iff_not, not_lt]
    norm_num
  have e3 : isExpired 30 3600 3500 = false := by
    simp only [isExpired, decide_eq_false_iff_not, not_lt]
    norm_num
  constructor
  · have h := (claim_C6_sweep_expired 30 3600
      (ConfigCache.mk "LAYER 1"
        [SheetCfg.mk "i1" "d" "A" "s" "b" "bn" 0,
         SheetCfg.mk "i2" "d" "B" "s" "b" "bn" 3000]) "B" 3500).2.1
    rw [h]
    simp [e1, e2]
  · exact (claim_C6_sweep_expired 30 3600
      (ConfigCache.mk "LAYER 1"
        [SheetCfg.mk "i1" "d" "A" "s" "b" "bn" 0,
         SheetCfg.mk "i2" "d" "B" "s" "b" "bn" 3000]) "B" 3500).2.2
      e3 (by decide)

/-- C2: when a config with the same `sheet_name` is already stored, the add
operation rejects the request and the store is unchanged (no fresh id is
assigned and nothing is appended). -/
theorem claim_C2_add_conflict (c : ConfigCache) (cfg : SheetCfg) (newId : String)
    (now : ℚ) (h : (getSheetConfigByName c cfg.sheetName).isSome) :
    ∃ msg, addSheetConfigRoute c cfg newId now = (.error msg, c) := by
  refine ⟨"Configuration for sheet '" ++ cfg.sheetName ++ "' already exists", ?_⟩
  simp [addSheetConfigRoute, h]

/-- Witness for C2 at a concrete store. -/
theorem claim_C2_add_conflict_witness :
    (getSheetConfigByName
        (ConfigCache.mk "LAYER 1" [SheetCfg.mk "i1" "d" "A" "s" "b" "bn" 0])
        (SheetCfg.mk "" "d2" "A" "s2" "b2" "bn2" 0).sheetName).isSome ∧
    ∃ msg, addSheetConfigRoute
        (ConfigCache.mk "LAYER 1" [SheetCfg.mk "i1" "d" "A" "s" "b" "bn" 0])
        (SheetCfg.mk "" "d2" "A" "s2" "b2" "bn2" 0) "i2" 100
      = (.error msg,
          ConfigCache.mk "LAYER 1" [SheetCfg.mk "i1" "d" "A" "s" "b" "bn" 0]) :=
  ⟨by decide,
    claim_C2_add_conflict
      (ConfigCache.mk "LAYER 1" [SheetCfg.mk "i1" "d" "A" "s" "b" "bn" 0])
      (SheetCfg.mk "" "d2" "A" "s2" "b2" "bn2" 0) "i2" 100 (by decide)⟩

theorem wcount_zero (nameList : List (List String)) (cell : Nat) :
    wcount nameList cell 0 = 0 := rfl

theorem wcount_succ (nameList : List (List String)) (cell k : Nat) :
    wcount nameList cell (k + 1)
      = (if isWritableRow nameList (cell - 13) then 1 else 0)
        + wcount nameList (cell + 1) k := rfl

theorem wcount_lower (nameList : List (List String)) :
    ∀ k cell, 13 ≤ cell →
      min k ((cell - 13 + k) - nameList.length) ≤ wcount nameList cell k := by
  intro k
  induction k with
  | zero => intro cell hc; simp [wcount_zero]
  | succ k ih =>
    intro cell hc
    have hrec := ih (cell + 1) (by omega)
    rw [wcount_succ]
    by_cases hL : nameList.length ≤ cell - 13
    · have hw : isWritableRow nameList (cell - 13) = true := by
        simp [isWritableRow, hL]
      rw [if_pos hw]
      omega
    · by_cases hw : isWritableRow nameList (cell - 13)
      · rw [if_pos hw]; omega
      · rw [if_neg hw]; omega

theorem scanCells_stop (danaUsed : String) (total : Nat)
    (bankList nameList : List (List String)) (cell : Nat) (accN accB : List Nat) :
    scanCells danaUsed total bankList nameList 0 cell accN accB
      = (accN.reverse, accB.reverse) := rfl

theorem scanCells_step (danaUsed : String) (total : Nat)
    (bankList nameList : List (List String)) (k cell : Nat) (accN accB : List Nat) :
    scanCells danaUsed total bankList nameList (k + 1) cell accN accB
      = if isWritableRow nameList (cell - 13) then
          let accN' := cell :: accN
          let accB' := if isBankRow danaUsed bankList (cell - 13) then cell :: accB
            else accB
          if accN'.length = total then (accN'.reverse, accB'.reverse)
          else scanCells danaUsed total bankList nameList k (cell + 1) accN' accB'
        else scanCells danaUsed total bankList nameList k (cell + 1) accN accB := rfl

theorem scan_fst_length (danaUsed : String) (total : Nat)
    (bankList nameList : List (List String)) :
    ∀ k cell accN accB, accN.length < total →
      total ≤ accN.length + wcount nameList cell k →
      ((scanCells danaUsed total bankList nameList k cell accN accB).1).length = total := by
  intro k
  induction k with
  | zero =>
    intro cell accN accB h1 h2
    rw [wcount_zero] at h2
    omega
  | succ k ih =>
    intro cell accN accB h1 h2
    rw [wcount_succ] at h2
    rw [scanCells_step]
    by_cases hw : isWritableRow nameList (cell - 13)
    · rw [if_pos hw] at h2
      rw [if_pos hw]
      by_cases ht : (cell :: accN).length = total
      · simp only [ht, if_pos]
        simpa using ht
      · simp only [ht, if_false, if_neg]
        apply ih
        · simp only [List.length_cons] at ht ⊢
          omega
        · simp only [List.length_cons]
          omega
    · rw [if_neg hw] at h2
      rw [if_neg hw]
      apply ih _ _ _ h1
      omega

theorem scan_snd_le (danaUsed : String) (total : Nat)
    (bankList nameList : List (List String)) :
    ∀ k cell accN accB, accB.length ≤ accN.length →
      ((scanCells danaUsed total bankList nameList k cell accN accB).2).length
        ≤ ((scanCells danaUsed total bankList nameList k cell accN accB).1).length := by
  intro k
  induction k with
  | zero => intro cell accN accB h; simpa [scanCells_stop] using h
  | succ k ih =>
    intro cell accN accB h
    rw [scanCells_step]
    by_cases hw : isWritableRow nameList (cell - 13)
    · rw [if_pos hw]
      simp only
      by_cases ht : (cell :: accN).length = total
      · rw [if_pos ht]
        by_cases hb : isBankRow danaUsed bankList (cell - 13)
        · rw [if_pos hb]
          simp only [List.length_reverse, List.length_cons]
          omega
        · rw [if_neg hb]
          simp only [List.length_reverse, List.length_cons]
          omega
      · rw [if_neg ht]
        by_cases hb : isBankRow danaUsed bankList (cell - 13)
        · rw [if_pos hb]
          exact ih _ _ _ (by simp only [List.length_cons]; omega)
        · rw [if_neg hb]
          exact ih _ _ _ (by simp only [List.length_cons]; omega)
    · rw [if_neg hw]
      exact ih _ _ _ h

/-- Core allocator fact: for a requested count of at least 1 the allocator
always succeeds, `name_ranges` has exactly the requested length, and
`bank_ranges` is never longer. -/
theorem getCells_ok (danaUsed : String) (total : Nat)
    (bankList nameList : List (List String)) (h : 1 ≤ total) :
    ∃ nr br, getCellsToInput danaUsed total bankList nameList = .ok (nr, br) ∧
      nr.length = total ∧ br.length ≤ nr.length := by
  by_cases he : bankList.isEmpty && nameList.isEmpty
  · refine ⟨List.range' 13 total, List.range' 13 total, ?_, ?_, le_refl _⟩
    · simp [getCellsToInput, he]
    · simp
  · have hmin : min (max nameList.length bankList.length + total)
        ((13 - 13 + (max nameList.length bankList.length + total)) - nameList.length)
        ≥ total := by
      omega
    have hw := wcount_lower nameList (max nameList.length bankList.length + total) 13
      (le_refl 13)
    have hlen := scan_fst_length danaUsed total bankList nameList
      (max nameList.length bankList.length + total) 13 [] []
      (by simpa using h) (by simp only [List.length_nil, Nat.zero_add]; omega)
    have hle := scan_snd_le danaUsed total bankList nameList
      (max nameList.length bankList.length + total) 13 [] [] (le_refl 0)
    refine ⟨(scanCells danaUsed total bankList nameList
        (max nameList.length bankList.length + total) 13 [] []).1,
      (scanCells danaUsed total bankList nameList
        (max nameList.length bankList.length + total) 13 [] []).2, ?_, hlen, hle⟩
    have hne : ((scanCells danaUsed total bankList nameList
        (max nameList.length bankList.length + total) 13 [] []).1).isEmpty = false := by
      cases hsc : (scanCells danaUsed total bankList nameList
          (max nameList.length bankList.length + total) 13 [] []).1 with
      | nil =>
        rw [hsc] at hlen
        simp at hlen
        omega
      | cons a l => rfl
    simp [getCellsToInput, he, hne]

/-- C4, amended: for every requested count of at least 1 (and any pair of
input columns) the allocator returns a `writable_rows` sequence whose length
is exactly the requested count, with `bank_update_rows` no longer; it never
silently returns a sequence of a different length. -/
theorem claim_C4_alloc_exact (danaUsed : String) (total : Nat)
    (bankList nameList : List (List String)) (h : 1 ≤ total) :
    ∃ nr br, getCellsToInput danaUsed total bankList nameList = .ok (nr, br) ∧
      nr.length = total ∧ br.length ≤ nr.length :=
  getCells_ok danaUsed total bankList nameList h

/-- Witness for the amended C4 at a concrete input: one populated name row
followed by free rows, count 2. -/
theorem claim_C4_alloc_exact_witness :
    1 ≤ 2 ∧
    ∃ nr br, getCellsToInput "BCA" 2 [["BCA"]] [["x"]] = .ok (nr, br) ∧
      nr.length = 2 ∧ br.length ≤ nr.length :=
  ⟨by decide, claim_C4_alloc_exact "BCA" 2 [["BCA"]] [["x"]] (by decide)⟩

/-- C4, counterexample to the claim as stated: for requested count 0 and a
column whose first name cell is empty, the allocator silently returns a
`writable_rows` sequence of length 1 (neither the requested count nor a
"no space" report). -/
theorem claim_C4_cex :
    getCellsToInput "X" 0 [["BCA"]] [[]] = .ok ([13], [13]) ∧
    ([13] : List Nat).length ≠ 0 := by
  constructor
  · rfl
  · decide

/-- C7: on an entirely empty table (both columns empty) the allocator returns
the first `n` absolute row indices starting at row 13 for both outputs; in
particular `[13, 14, 15, 16, 17]` for count 5. -/
theorem claim_C7_empty_table (danaUsed : String) (n : Nat) :
    getCellsToInput danaUsed n [] [] = .ok (List.range' 13 n, List.range' 13 n) ∧
    getCellsToInput danaUsed 5 [] []
      = .ok ([13, 14, 15, 16, 17], [13, 14, 15, 16, 17]) := by
  constructor
  · rfl
  · rfl

theorem bankLoop_closed (danaUsed : String) :
    ∀ (br : List Nat) (i : Nat) (data : List Instr),
      bankLoop danaUsed br i data
        = data ++ (br.take (data.length - 2 * i)).map (mkBankInstr danaUsed) := by
  intro br
  induction br with
  | nil => intro i data; simp [bankLoop]
  | cons r rest ih =>
    intro i data
    show (if data.length ≤ 2 * i then data
        else bankLoop danaUsed rest (i + 1) (data ++ [mkBankInstr danaUsed r]))
      = data ++ ((r :: rest).take (data.length - 2 * i)).map (mkBankInstr danaUsed)
    by_cases hstop : data.length ≤ 2 * i
    · rw [if_pos hstop]
      have : data.length - 2 * i = 0 := by omega
      simp [this]
    · rw [if_neg hstop, ih]
      have h1 : (data ++ [mkBankInstr danaUsed r]).length - 2 * (i + 1)
          = data.length - 2 * i - 1 := by
        simp only [List.length_append, List.length_cons, List.length_nil]
        omega
      have h2 : data.length - 2 * i = (data.length - 2 * i - 1) + 1 := by omega
      rw [h1, h2, List.take_succ_cons]
      simp

theorem mainLoop_length (cfg : MergedConfig) (nowStr : String) :
    ∀ (pairs : List (Nat × List String)) (data : List Instr),
      mainLoop cfg nowStr pairs = .ok data → pairs.length ≤ data.length := by
  intro pairs
  induction pairs with
  | nil =>
    intro data h
    simp only [mainLoop] at h
    cases h
    simp
  | cons p rest ih =>
    intro data h
    obtain ⟨cell, row⟩ := p
    simp only [mainLoop] at h
    cases htr : transformRow cfg row cell with
    | error e => rw [htr] at h; cases h
    | ok row' =>
      rw [htr] at h
      cases hml : mainLoop cfg nowStr rest with
      | error e => rw [hml] at h; cases h
      | ok tail =>
        rw [hml] at h
        cases h
        have := ih tail hml
        simp only [List.length_cons, List.length_append]
        omega

/-- C5: whenever `preparing_data` succeeds on a non-empty batch, the emitted
instruction sequence is the main-loop instructions followed by exactly one
bank-indicator instruction per element of `bank_ranges`, each writing the
tenant's bank code into column `C` of that row; in particular the number of
bank instructions equals `len(bank_ranges)` and never exceeds
`len(writable_rows)`. -/
theorem claim_C5_bank_instructions (cfg : MergedConfig) (values : List (List String))
    (nowStr : String) (bankList nameList : List (List String))
    (nr br : List Nat) (instrs : List Instr)
    (hv : values ≠ [])
    (halloc : getCellsToInput cfg.danaUsed values.length bankList nameList = .ok (nr, br))
    (hok : preparingData cfg values nowStr bankList nameList = .ok instrs) :
    br.length ≤ nr.length ∧
    ∃ data, mainLoop cfg nowStr (nr.zip values) = .ok data ∧
      instrs = data ++ br.map (mkBankInstr cfg.danaUsed) := by
  have htot : 1 ≤ values.length := by
    cases values with
    | nil => exact absurd rfl hv
    | cons v vs => simp
  obtain ⟨nr', br', halloc', hlen', hle'⟩ :=
    getCells_ok cfg.danaUsed values.length bankList nameList htot
  rw [halloc] at halloc'
  cases halloc'
  refine ⟨hle', ?_⟩
  simp only [preparingData, halloc] at hok
  cases hml : mainLoop cfg nowStr (nr.zip values) with
  | error e => rw [hml] at hok; cases hok
  | ok data =>
    rw [hml] at hok
    cases hok
    refine ⟨data, rfl, ?_⟩
    have hzip : (nr.zip values).length = nr.length := by
      rw [List.length_zip, hlen']
      omega
    have hdata : br.length ≤ data.length := by
      have := mainLoop_length cfg nowStr (nr.zip values) data hml
      omega
    rw [bankLoop_closed]
    have : data.length - 2 * 0 = data.length := by omega
    rw [this, List.take_of_length_le (by omega)]

/-- Witness for C5 at a concrete batch of one row. -/
theorem claim_C5_bank_instructions_witness :
    ([14] : List Nat).length ≤ ([14] : List Nat).length ∧
    ∃ data, mainLoop (MergedConfig.mk "BCA" "LAYER 1" "" "") "07:00:00"
        (([14] : List Nat).zip [["N", "x", "c", "f3", "f4", ""]]) = .ok data ∧
      [Instr.mk "E14" [["N", "=G14/1000", "c", "f3", "f4", ""]],
        Instr.mk "C14" [["BCA"]]]
        = data ++ ([14] : List Nat).map (mkBankInstr "BCA") :=
  claim_C5_bank_instructions (MergedConfig.mk "BCA" "LAYER 1" "" "")
    [["N", "x", "c", "f3", "f4", ""]] "07:00:00" [["OVO"]] [["x"]] [14] [14]
    [Instr.mk "E14" [["N", "=G14/1000", "c", "f3", "f4", ""]],
      Instr.mk "C14" [["BCA"]]]
    (by decide) (by rfl) (by rfl)

theorem transformRow_head (cfg : MergedConfig) (l0 l1 l2 l3 l4 l5 : String)
    (rest : List String) (cell : Nat) :
    ∃ tl, transformRow cfg (l0 :: l1 :: l2 :: l3 :: l4 :: l5 :: rest) cell
      = .ok (rewriteLabel cfg l0 :: tl) :=
  ⟨_, rfl⟩

/-- C8: the Row Formatter's label rewrite.  A label containing
`"KIRIM DANA KE"` gets the configured transfer destination appended after a
space; otherwise a label containing `"KIRIM UANG"` with both
destination-bank fields non-empty is replaced by the canonical
`"KIRIM DANA KE <bank> <name> <destination>"` string; every other label is
left unchanged. -/
theorem claim_C8_label_rewrite (cfg : MergedConfig) (l0 l1 l2 l3 l4 l5 : String)
    (rest : List String) (cell : Nat) :
    (strContains l0 "KIRIM DANA KE" = true →
      ∃ tl, transformRow cfg (l0 :: l1 :: l2 :: l3 :: l4 :: l5 :: rest) cell
        = .ok ((l0 ++ " " ++ cfg.transferDestination) :: tl)) ∧
    (strContains l0 "KIRIM DANA KE" = false → strContains l0 "KIRIM UANG" = true →
      cfg.bankDestination.isEmpty = false → cfg.bankNameDestination.isEmpty = false →
      ∃ tl, transformRow cfg (l0 :: l1 :: l2 :: l3 :: l4 :: l5 :: rest) cell
        = .ok (("KIRIM DANA KE " ++ cfg.bankDestination ++ " "
            ++ cfg.bankNameDestination ++ " " ++ cfg.transferDestination) :: tl)) ∧
    (strContains l0 "KIRIM DANA KE" = false →
      (strContains l0 "KIRIM UANG" = false ∨ cfg.bankDestination.isEmpty = true ∨
        cfg.bankNameDestination.isEmpty = true) →
      ∃ tl, transformRow cfg (l0 :: l1 :: l2 :: l3 :: l4 :: l5 :: rest) cell
        = .ok (l0 :: tl)) := by
  obtain ⟨tl, htl⟩ := transformRow_head cfg l0 l1 l2 l3 l4 l5 rest cell
  refine ⟨?_, ?_, ?_⟩
  · intro h1
    refine ⟨tl, ?_⟩
    rw [htl]
    have : rewriteLabel cfg l0 = l0 ++ " " ++ cfg.transferDestination := by
      simp [rewriteLabel, h1]
    rw [this]
  · intro h1 h2 h3 h4
    refine ⟨tl, ?_⟩
    rw [htl]
    have : rewriteLabel cfg l0 = "KIRIM DANA KE " ++ cfg.bankDestination ++ " "
        ++ cfg.bankNameDestination ++ " " ++ cfg.transferDestination := by
      simp [rewriteLabel, h1, h2, h3, h4]
    rw [this]
  · intro h1 h2
    refine ⟨tl, ?_⟩
    rw [htl]
    have : rewriteLabel cfg l0 = l0 := by
      rcases h2 with h2 | h2 | h2 <;> simp [rewriteLabel, h1, h2]
    rw [this]

/-- Witness for C8 at concrete labels. -/
theorem claim_C8_label_rewrite_witness :
    ∃ tl, transformRow (MergedConfig.mk "BCA" "LAYER 1" "B" "N")
        ["KIRIM DANA KE SESAMA", "x", "c", "f3", "f4", ""] 13
      = .ok (("KIRIM DANA KE SESAMA" ++ " " ++ "LAYER 1") :: tl) :=
  (claim_C8_label_rewrite (MergedConfig.mk "BCA" "LAYER 1" "B" "N")
    "KIRIM DANA KE SESAMA" "x" "c" "f3" "f4" "" [] 13).1 (by decide)

theorem getD_set_of_ne {α : Type} (l : List α) (i j : Nat) (a d : α) (hij : i ≠ j) :
    (l.set i a).getD j d = l.getD j d := by
  induction l generalizing i j with
  | nil => simp
  | cons x xs ih =>
    cases i with
    | zero =>
      cases j with
      | zero => exact absurd rfl hij
      | succ j => simp
    | succ i =>
      cases j with
      | zero => simp
      | succ j => simpa using ih i j (by omega)

theorem getD_set_self {α : Type} (l : List α) (i : Nat) (a d : α) (hi : i < l.length) :
    (l.set i a).getD i d = a := by
  induction l generalizing i with
  | nil => simp at hi
  | cons x xs ih =>
    cases i with
    | zero => simp
    | succ i => simpa using ih i (by simpa using hi)

theorem getD_append_left {α : Type} (l l' : List α) (j : Nat) (d : α)
    (hj : j < l.length) :
    (l ++ l').getD j d = l.getD j d := by
  induction l generalizing j with
  | nil => simp at hj
  | cons x xs ih =>
    cases j with
    | zero => simp
    | succ j => simpa using ih j (by simpa using hj)

theorem find?_congr {α : Type} (l : List α) (f g : α → Bool)
    (h : ∀ x ∈ l, f x = g x) :
    l.find? f = l.find? g := by
  induction l with
  | nil => rfl
  | cons x xs ih =>
    have hx := h x (by simp)
    by_cases hfx : f x = true
    · rw [List.find?_cons_of_pos _ hfx, List.find?_cons_of_pos _ (by rw [← hx]; exact hfx)]
    · rw [List.find?_cons_of_neg _ (by simpa using hfx),
        List.find?_cons_of_neg _ (by rw [← hx]; simpa using hfx)]
      exact ih (fun y hy => h y (List.mem_cons_of_mem _ hy))

theorem obsEq_intro (c₂ c₁ : CacheH) (hrefs : c₂.refs = c₁.refs)
    (hread : ∀ x ∈ c₁.refs, c₂.readCfg x = c₁.readCfg x)
    (hglob : c₂.peekGlobal = c₁.peekGlobal) : obsEq c₂ c₁ := by
  refine ⟨?_, ?_, hglob, ?_⟩
  · intro n
    show (c₂.findRefByName n).map c₂.readCfg = (c₁.findRefByName n).map c₁.readCfg
    have hfind : c₂.findRefByName n = c₁.findRefByName n := by
      show c₂.refs.find? _ = c₁.refs.find? _
      rw [hrefs]
      exact find?_congr _ _ _ (fun x hx => by rw [hread x hx])
    rw [hfind]
    cases hf : c₁.findRefByName n with
    | none => rfl
    | some r =>
      have hr : r ∈ c₁.refs := List.mem_of_find?_eq_some hf
      simp [hread r hr]
  · intro i
    show (c₂.findRefById i).map c₂.readCfg = (c₁.findRefById i).map c₁.readCfg
    have hfind : c₂.findRefById i = c₁.findRefById i := by
      show c₂.refs.find? _ = c₁.refs.find? _
      rw [hrefs]
      exact find?_congr _ _ _ (fun x hx => by rw [hread x hx])
    rw [hfind]
    cases hf : c₁.findRefById i with
    | none => rfl
    | some r =>
      have hr : r ∈ c₁.refs := List.mem_of_find?_eq_some hf
      simp [hread r hr]
  · rw [hrefs]
    exact List.map_congr_left hread

/-- C9, amended: the by-id, by-name and global accessors return fresh
copies, so no caller mutation applied through their returned values changes
what any subsequent accessor call reports; the get-all accessor, however,
returns a list aliasing the stored config dicts (see the counterexample). -/
theorem claim_C9_accessor_copies (c : CacheH) (hwf : c.WF) :
    (∀ n r c', c.getSheetConfigByName n = (some r, c') →
      ∀ k, obsEq (c'.writeCfg r k) c) ∧
    (∀ i r c', c.getSheetConfigById i = (some r, c') →
      ∀ k, obsEq (c'.writeCfg r k) c) ∧
    (∀ v, obsEq ((c.getGlobalSettings).2.writeG (c.getGlobalSettings).1 v) c) := by
  refine ⟨?_, ?_, ?_⟩
  · intro n r c' h k
    unfold CacheH.getSheetConfigByName at h
    cases hf : c.findRefByName n with
    | none => rw [hf] at h; cases h
    | some r0 =>
      rw [hf] at h
      cases h
      refine obsEq_intro _ _ rfl ?_ rfl
      intro x hx
      show ((c.cfgHeap ++ [c.readCfg r0]).set c.cfgHeap.length k).getD x default
        = c.cfgHeap.getD x default
      have hxlen : x < c.cfgHeap.length := hwf.1 x hx
      rw [getD_set_of_ne _ _ _ _ _ (by omega), getD_append_left _ _ _ _ hxlen]
  · intro i r c' h k
    unfold CacheH.getSheetConfigById at h
    cases hf : c.findRefById i with
    | none => rw [hf] at h; cases h
    | some r0 =>
      rw [hf] at h
      cases h
      refine obsEq_intro _ _ rfl ?_ rfl
      intro x hx
      show ((c.cfgHeap ++ [c.readCfg r0]).set c.cfgHeap.length k).getD x default
        = c.cfgHeap.getD x default
      have hxlen : x < c.cfgHeap.length := hwf.1 x hx
      rw [getD_set_of_ne _ _ _ _ _ (by omega), getD_append_left _ _ _ _ hxlen]
  · intro v
    refine obsEq_intro _ _ rfl (fun x hx => rfl) ?_
    show ((c.gHeap ++ [c.gHeap.getD c.gRef default]).set c.gHeap.length v).getD
        c.gRef default = c.gHeap.getD c.gRef default
    rw [getD_set_of_ne _ _ _ _ _ (by have := hwf.2; omega),
      getD_append_left _ _ _ _ hwf.2]

/-- Witness for the amended C9: a mutation applied through the fresh copy
returned by the by-name accessor leaves the concrete store observationally
unchanged. -/
theorem claim_C9_accessor_copies_witness :
    obsEq
      (CacheH.writeCfg
        (CacheH.mk
          [SheetCfg.mk "i1" "d" "A" "s" "b" "bn" 0,
           SheetCfg.mk "i1" "d" "A" "s" "b" "bn" 0]
          [GlobalS.mk "LAYER 1"] [0] 0) 1
        (SheetCfg.mk "i1" "d" "HACK" "s" "b" "bn" 0))
      (CacheH.mk [SheetCfg.mk "i1" "d" "A" "s" "b" "bn" 0]
        [GlobalS.mk "LAYER 1"] [0] 0) :=
  (claim_C9_accessor_copies
    (CacheH.mk [SheetCfg.mk "i1" "d" "A" "s" "b" "bn" 0]
      [GlobalS.mk "LAYER 1"] [0] 0)
    ⟨by decide, by decide⟩).1 "A" 1
    (CacheH.mk
      [SheetCfg.mk "i1" "d" "A" "s" "b" "bn" 0,
       SheetCfg.mk "i1" "d" "A" "s" "b" "bn" 0]
      [GlobalS.mk "LAYER 1"] [0] 0)
    (by rfl) (SheetCfg.mk "i1" "d" "HACK" "s" "b" "bn" 0)

/-- C9, counterexample to the claim as stated: `get_all_sheet_configs`
returns a shallow list copy whose elements are the stored dicts themselves;
mutating the first returned element changes what a subsequent by-name lookup
reports (the config named "A" disappears from the store). -/
theorem claim_C9_cex :
    CacheH.getAllSheetConfigs
      (CacheH.mk [SheetCfg.mk "i1" "d" "A" "s" "b" "bn" 0]
        [GlobalS.mk "LAYER 1"] [0] 0) = [0] ∧
    (CacheH.peekByName
      (CacheH.mk [SheetCfg.mk "i1" "d" "A" "s" "b" "bn" 0]
        [GlobalS.mk "LAYER 1"] [0] 0) "A").isSome = true ∧
    (CacheH.peekByName
      (CacheH.writeCfg
        (CacheH.mk [SheetCfg.mk "i1" "d" "A" "s" "b" "bn" 0]
          [GlobalS.mk "LAYER 1"] [0] 0)
        ((CacheH.getAllSheetConfigs
          (CacheH.mk [SheetCfg.mk "i1" "d" "A" "s" "b" "bn" 0]
            [GlobalS.mk "LAYER 1"] [0] 0)).getD 0 0)
        (SheetCfg.mk "i1" "d" "HACK" "s" "b" "bn" 0)) "A").isSome = false :=
  ⟨rfl, rfl, rfl⟩

theorem mainLoopH_frame (cfg : MergedConfig) (nowStr : String) :
    ∀ (pairs : List (Nat × Nat)) (rows : List (List String))
      (instrs : List InstrH) (rowsEnd : List (List String)) (r : Nat),
      r ∉ pairs.map Prod.snd →
      mainLoopH cfg nowStr pairs rows = .ok (instrs, rowsEnd) →
      rowsEnd.getD r [] = rows.getD r [] := by
  intro pairs
  induction pairs with
  | nil =>
    intro rows instrs rowsEnd r _ h
    simp only [mainLoopH] at h
    cases h
    rfl
  | cons q rest ih =>
    intro rows instrs rowsEnd r hnotin h
    obtain ⟨cell, r0⟩ := q
    cases htr : transformRow cfg (rows.getD r0 []) cell with
    | error e => simp only [mainLoopH, htr] at h; cases h
    | ok row' =>
      simp only [mainLoopH, htr] at h
      cases hml : mainLoopH cfg nowStr rest (rows.set r0 row') with
      | error e => rw [hml] at h; cases h
      | ok pr =>
        rw [hml] at h
        cases h
        have hr0 : r ≠ r0 := by
          intro hcontra
          exact hnotin (by simp [hcontra])
        have hrrest : r ∉ rest.map Prod.snd := by
          intro hcontra
          exact hnotin (by simp [hcontra])
        have := ih (rows.set r0 row') pr.1 pr.2 r hrrest (by rw [hml])
        rw [this, getD_set_of_ne _ _ _ _ _ (fun hc => hr0 hc.symm)]

/-- C10: the Row Formatter mutates the caller's rows in place.  For every
batch whose row references are distinct and valid, on success each processed
pair `(cell, r)` contributes an `E` instruction whose values are the very
reference `r` the caller passed in (so later mutations of the instruction
values and of the caller's row are mutations of one object), and the final
heap holds at `r` the transformed row (label rewritten, second field
overwritten, fee field possibly overwritten). -/
theorem claim_C10_formatter_in_place (cfg : MergedConfig) (nowStr : String) :
    ∀ (pairs : List (Nat × Nat)) (rows : List (List String))
      (instrs : List InstrH) (rowsEnd : List (List String)),
      (pairs.map Prod.snd).Nodup →
      (∀ p ∈ pairs, p.2 < rows.length) →
      mainLoopH cfg nowStr pairs rows = .ok (instrs, rowsEnd) →
      ∀ p ∈ pairs,
        InstrH.mk ("E" ++ toString p.1) (.ref p.2) ∈ instrs ∧
        ∃ row', transformRow cfg (rows.getD p.2 []) p.1 = .ok row' ∧
          rowsEnd.getD p.2 [] = row' := by
  intro pairs
  induction pairs with
  | nil =>
    intro rows instrs rowsEnd _ _ _ p hp
    simp at hp
  | cons q rest ih =>
    intro rows instrs rowsEnd hnd hvalid heq p hp
    obtain ⟨cell, r⟩ := q
    cases htr : transformRow cfg (rows.getD r []) cell with
    | error e => simp only [mainLoopH, htr] at heq; cases heq
    | ok row' =>
      simp only [mainLoopH, htr] at heq
      cases hml : mainLoopH cfg nowStr rest (rows.set r row') with
      | error e => rw [hml] at heq; cases heq
      | ok pr =>
        rw [hml] at heq
        cases heq
        have hnd' : ((cell, r) :: rest).map Prod.snd = r :: rest.map Prod.snd := rfl
        rw [hnd'] at hnd
        have hrnotin : r ∉ rest.map Prod.snd := (List.nodup_cons.mp hnd).1
        have hndrest : (rest.map Prod.snd).Nodup := (List.nodup_cons.mp hnd).2
        rcases List.mem_cons.mp hp with hp | hp
        · subst hp
          refine ⟨List.mem_cons_self _ _, row', htr, ?_⟩
          have hframe := mainLoopH_frame cfg nowStr rest (rows.set r row')
            pr.1 pr.2 r hrnotin (by rw [hml])
          rw [hframe, getD_set_self _ _ _ _ (hvalid (cell, r) (List.mem_cons_self _ _))]
        · have hvalid' : ∀ q' ∈ rest, q'.2 < (rows.set r row').length := by
            intro q' hq'
            rw [List.length_set]
            exact hvalid q' (List.mem_cons_of_mem _ hq')
          have hres := ih (rows.set r row') pr.1 pr.2 hndrest hvalid'
            (by rw [hml]) p hp
          have hpr : p.2 ≠ r := by
            intro hc
            exact hrnotin (hc ▸ List.mem_map_of_mem Prod.snd hp)
          obtain ⟨hmem, row'', htr'', hend''⟩ := hres
          refine ⟨List.mem_cons_of_mem _ (List.mem_append_right _ hmem), row'', ?_, hend''⟩
          rw [getD_set_of_ne _ _ _ _ _ (fun hc => hpr hc.symm)] at htr''
          exact htr''

/-- Witness for C10 at a one-row batch. -/
theorem claim_C10_formatter_in_place_witness :
    InstrH.mk ("E" ++ toString 13) (.ref 0)
      ∈ [InstrH.mk "E13" (.ref 0),
          InstrH.mk "B13" (.lit [["07:00:00", "BCA", "-"]])] ∧
    ∃ row', transformRow (MergedConfig.mk "BCA" "LAYER 1" "" "")
        (([["N", "x", "", "f3", "f4", ""]] : List (List String)).getD 0 []) 13
      = .ok row' ∧
      (([["N", "=G13/1000", "", "f3", "f4", ""]] : List (List String))).getD 0 [] = row' :=
  claim_C10_formatter_in_place (MergedConfig.mk "BCA" "LAYER 1" "" "") "07:00:00"
    [(13, 0)] [["N", "x", "", "f3", "f4", ""]]
    [InstrH.mk "E13" (.ref 0), InstrH.mk "B13" (.lit [["07:00:00", "BCA", "-"]])]
    [["N", "=G13/1000", "", "f3", "f4", ""]]
    (by decide) (by decide) (by rfl) (13, 0) (by decide)

/-- C1: the rows that reach the allocate/format/deliver stage and fail are
buffered only in the request-local `ErrorData` (added there exactly once),
because `get_error_data()` builds a new empty instance per request; the
tenant's next batch therefore starts from an empty buffer and the failed
rows are not merged into it — they are silently lost, contradicting the
retry/merge logic the route and `ErrorData` docstrings implement this buffer
for.  Concretely: a batch with two new ids and one duplicate fails at
delivery; the next batch merges nothing. -/
theorem claim_C1_buffer_not_persisted :
    (processRequest [("S", ["t0"])] "S" ["t1", "t2", "t0"]
        [["r1"], ["r2"], ["r0"]] true).1.merged = [["r1"], ["r2"]] ∧
    ((processRequest [("S", ["t0"])] "S" ["t1", "t2", "t0"]
        [["r1"], ["r2"], ["r0"]] true).1.localBuffer.get "S") = [["r1"], ["r2"]] ∧
    (processRequest
        (processRequest [("S", ["t0"])] "S" ["t1", "t2", "t0"]
          [["r1"], ["r2"], ["r0"]] true).2
        "S" ["t4"] [["r4"]] false).1.merged = [["r4"]] ∧
    (processRequest
        (processRequest [("S", ["t0"])] "S" ["t1", "t2", "t0"]
          [["r1"], ["r2"], ["r0"]] true).2
        "S" ["t4"] [["r4"]] false).1.merged ≠ [["r4"], ["r1"], ["r2"]] := by
  refine ⟨rfl, rfl, rfl, ?_⟩
  decide

/-- Witness for the amended C3 at a concrete input. -/
theorem claim_C3_filter_new_dedup_witness :
    ((filterNewTransactions ([] : Tracker) "S" ["a", "b"]).1 ++
      (filterNewTransactions (filterNewTransactions ([] : Tracker) "S" ["a", "b"]).2
        "S" ["b", "c"]).1).count "b" ≤ 1 :=
  (claim_C3_filter_new_dedup "S" ["a", "b"] ["b", "c"]).2.2.2
    (by decide) (by decide) "b"

end DataTransfer
